import Mathlib

/-!
Verification of the DeltaDatabase coordination / codec / chat-frontend layer.

The Python sources under `tests/` (the mock gRPC workers and the JSON-over-RPC
codec in `conftest.py`) and `examples/chat/app.py` are embedded shallowly:

* bytes values are `List Nat` with every element `< 256`;
* Python dicts are association lists looked up by key;
* `base64.b64encode` / `base64.b64decode` are implemented over `List Nat`;
* gRPC `context.abort` is an `Except.error` carrying the status code.

Components whose implementation lives only in the Go binaries (the versioned
write pipeline of the processing worker and the REST authorization gate of the
main worker) are modelled from the specification; their doc comments say so.
-/

namespace DeltaDB

/-- Byte strings are lists of naturals; `isBytes` states the byte range. -/
abbrev Bytes := List Nat

/-- Every element of the list is a byte (`< 256`). -/
def isBytes (l : Bytes) : Prop := ∀ x ∈ l, x < 256

instance (l : Bytes) : Decidable (isBytes l) := by
  unfold isBytes; infer_instance

/-- Python-dict lookup on an association list (first binding wins). -/
def alookup {α : Type} : List (String × α) → String → Option α
  | [], _ => none
  | (k, v) :: rest, key => if k = key then some v else alookup rest key

/-- Python-dict update `d[k] = v`: replace the existing binding in place,
or append a fresh one at the end (insertion order). -/
def aset {α : Type} : List (String × α) → String → α → List (String × α)
  | [], key, v => [(key, v)]
  | (k, w) :: rest, key, v =>
    if k = key then (k, v) :: rest else (k, w) :: aset rest key v

theorem alookup_aset_self {α : Type} (d : List (String × α)) (k : String) (v : α) :
    alookup (aset d k v) k = some v := by
  induction d with
  | nil => simp [aset, alookup]
  | cons hd tl ih =>
    obtain ⟨k', w⟩ := hd
    by_cases h : k' = k
    · simp [aset, alookup, h]
    · simp [aset, alookup, h, ih]

theorem alookup_aset_ne {α : Type} (d : List (String × α)) (k k' : String) (v : α)
    (h : k ≠ k') : alookup (aset d k v) k' = alookup d k' := by
  induction d with
  | nil => simp [aset, alookup, h]
  | cons hd tl ih =>
    obtain ⟨k0, w⟩ := hd
    by_cases h0 : k0 = k
    · subst h0; simp [aset, alookup, h]
    · simp [aset, alookup, h0, ih]

/-! ## Base64 (Python `base64.b64encode` / `b64decode`)

The codec in `tests/conftest.py` represents bytes fields on the wire as
standard base64 strings.  We implement standard base64 with `=` padding over
byte lists and prove that decoding inverts encoding. -/

/-- The standard base64 alphabet, as the 64 characters in index order. -/
def b64chars : List Char :=
  ['A', 'B', 'C', 'D', 'E', 'F', 'G', 'H', 'I', 'J', 'K', 'L', 'M',
   'N', 'O', 'P', 'Q', 'R', 'S', 'T', 'U', 'V', 'W', 'X', 'Y', 'Z',
   'a', 'b', 'c', 'd', 'e', 'f', 'g', 'h', 'i', 'j', 'k', 'l', 'm',
   'n', 'o', 'p', 'q', 'r', 's', 't', 'u', 'v', 'w', 'x', 'y', 'z',
   '0', '1', '2', '3', '4', '5', '6', '7', '8', '9', '+', '/']

/-- Character for a 6-bit group. -/
def encChar (n : Nat) : Char := b64chars.getD n 'A'

/-- Index of a character in the base64 alphabet, `none` if absent. -/
def decChar (c : Char) : Option Nat := go b64chars
where
  go : List Char → Option Nat
    | [] => none
    | x :: xs => if x = c then some 0 else (go xs).map (· + 1)

theorem decChar_encChar : ∀ n, n < 64 → decChar (encChar n) = some n := by decide

theorem encChar_ne_pad : ∀ n, n < 64 → encChar n ≠ '=' := by decide

/-- Standard base64 encoding of a byte list, three bytes at a time, with
`=` padding on a trailing group of one or two bytes. -/
def b64encodeList : Bytes → List Char
  | [] => []
  | [a] => [encChar (a / 4), encChar (a % 4 * 16), '=', '=']
  | [a, b] => [encChar (a / 4), encChar (a % 4 * 16 + b / 16), encChar (b % 16 * 4), '=']
  | a :: b :: c :: rest =>
    encChar (a / 4) :: encChar (a % 4 * 16 + b / 16) ::
      encChar (b % 16 * 4 + c / 64) :: encChar (c % 64) :: b64encodeList rest

/-- Standard base64 decoding, four characters at a time; `none` on any
character outside the alphabet or malformed padding.  On the strings produced
by `b64encodeList` this agrees with Python's `base64.b64decode`. -/
def b64decodeList : List Char → Option Bytes
  | [] => some []
  | c1 :: c2 :: c3 :: c4 :: rest =>
    (decChar c1).bind fun d1 =>
    (decChar c2).bind fun d2 =>
    if c3 = '=' ∧ c4 = '=' ∧ rest = [] then
      some [d1 * 4 + d2 / 16]
    else
      (decChar c3).bind fun d3 =>
      if c4 = '=' ∧ rest = [] then
        some [d1 * 4 + d2 / 16, d2 % 16 * 16 + d3 / 4]
      else
        (decChar c4).bind fun d4 =>
        (b64decodeList rest).map
          (fun bs => (d1 * 4 + d2 / 16) :: (d2 % 16 * 16 + d3 / 4) ::
            (d3 % 4 * 64 + d4) :: bs)
  | _ => none

theorem b64_roundtrip (l : Bytes) (h : isBytes l) :
    b64decodeList (b64encodeList l) = some l := by
  induction l using b64encodeList.induct with
  | case1 => rfl
  | case2 a =>
    have ha : a < 256 := h a (by simp)
    have e1 := decChar_encChar (a / 4) (by omega)
    have e2 := decChar_encChar (a % 4 * 16) (by omega)
    rw [b64encodeList, b64decodeList]
    simp only [e1, e2, Option.some_bind, and_self, if_true]
    congr 2
    omega
  | case3 a b =>
    have ha : a < 256 := h a (by simp)
    have hb : b < 256 := h b (by simp)
    have h3 : encChar (b % 16 * 4) ≠ '=' := encChar_ne_pad _ (by omega)
    have e1 := decChar_encChar (a / 4) (by omega)
    have e2 := decChar_encChar (a % 4 * 16 + b / 16) (by omega)
    have e3 := decChar_encChar (b % 16 * 4) (by omega)
    rw [b64encodeList, b64decodeList]
    simp only [e1, e2, e3, Option.some_bind]
    rw [if_neg (fun hcon => h3 hcon.1), if_pos ⟨trivial, trivial⟩]
    congr 1
    congr 1
    · omega
    · congr 1
      omega
  | case4 a b c rest ih =>
    have ha : a < 256 := h a (by simp)
    have hb : b < 256 := h b (by simp)
    have hc : c < 256 := h c (by simp)
    have hrest : isBytes rest := by
      intro x hx
      exact h x (by simp [hx])
    have h3 : encChar (b % 16 * 4 + c / 64) ≠ '=' := encChar_ne_pad _ (by omega)
    have h4 : encChar (c % 64) ≠ '=' := encChar_ne_pad _ (by omega)
    have e1 := decChar_encChar (a / 4) (by omega)
    have e2 := decChar_encChar (a % 4 * 16 + b / 16) (by omega)
    have e3 := decChar_encChar (b % 16 * 4 + c / 64) (by omega)
    have e4 := decChar_encChar (c % 64) (by omega)
    rw [b64encodeList, b64decodeList]
    simp only [e1, e2, e3, e4, Option.some_bind]
    rw [if_neg (fun hcon => h3 hcon.1), if_neg (fun hcon => h4 hcon.1)]
    rw [ih hrest]
    simp only [Option.map_some']
    congr 1
    congr 1
    · omega
    · congr 1
      · omega
      · congr 1
        omega

/-! ## JSON-over-RPC codec (`tests/conftest.py`, class `_Msg`)

A message object is its Python `__dict__`: an ordered association list from
field names to JSON values.  The four message classes set every declared field
in `__init__`, so a constructed message carries all of its fields, in
declaration order.  Python dicts compare extensionally, so wire/object
equality is lookup equality (`objEquiv`). -/

/-- A Python attribute/JSON value as it occurs in the codec messages:
a string, a bytes value, or a string-to-string map (the `tags` dict). -/
inductive Val where
  | vstr : String → Val
  | vbytes : Bytes → Val
  | vmap : List (String × String) → Val
deriving DecidableEq

/-- A message `__dict__` / wire JSON object. -/
abbrev Obj := List (String × Val)

/-- Base64 of a byte list, as a string (Python `base64.b64encode(...).decode("ascii")`). -/
def b64encodeStr (b : Bytes) : String := String.mk (b64encodeList b)

/-- Base64 decoding of a string (Python `base64.b64decode`); `none` when
Python would raise. -/
def b64decodeStr (s : String) : Option Bytes := b64decodeList s.data

/-- `_Msg._to_wire` (conftest.py:240-255): walk the `__dict__` in order;
base64-encode a non-empty bytes field and omit an empty one; include a
non-empty string or dict and omit an empty one; a bytes value outside
`_bytes_fields` falls through every branch and is omitted. -/
def toWire (bf : List String) : Obj → Obj
  | [] => []
  | (k, v) :: rest =>
    let tail := toWire bf rest
    match v with
    | .vstr s => if s = "" then tail else (k, .vstr s) :: tail
    | .vbytes b =>
      if k ∈ bf then
        (if b = [] then tail else (k, .vstr (b64encodeStr b)) :: tail)
      else tail
    | .vmap m => if m = [] then tail else (k, .vmap m) :: tail

/-- One entry of the `_Msg._from_wire` loop (conftest.py:260-264): a string
value of a declared bytes field is base64-decoded (a decode failure raises,
i.e. `none`); every other entry is set as-is. -/
def wireEntry (bf : List String) (k : String) (v : Val) : Option (String × Val) :=
  match v with
  | .vstr s =>
    if k ∈ bf then (b64decodeStr s).map (fun b => (k, .vbytes b))
    else some (k, .vstr s)
  | w => some (k, w)

/-- The entry loop of `_Msg._from_wire` (conftest.py:257-264). -/
def fromWireEntries (bf : List String) : Obj → Option Obj
  | [] => some []
  | (k, v) :: rest =>
    (wireEntry bf k v).bind fun e => (fromWireEntries bf rest).map (e :: ·)

/-- `_Msg._from_wire` (conftest.py:257-269): decode the wire entries, then
default every declared bytes field that was absent from the wire object to
`b""`. -/
def fromWire (bf : List String) (d : Obj) : Option Obj :=
  (fromWireEntries bf d).map
    (fun o => o ++ (bf.filter (fun f => (alookup d f).isNone)).map (fun f => (f, Val.vbytes [])))

/-- Extensional (Python-dict) equality of two message objects. -/
def objEquiv (d1 d2 : Obj) : Prop := ∀ k, alookup d1 k = alookup d2 k

/-- The wire/`__dict__` roundtrip through the codec succeeds and restores the
message up to dict equality. -/
def wireRoundtrips (bf : List String) (d : Obj) : Prop :=
  ∃ d', fromWire bf (toWire bf d) = some d' ∧ objEquiv d' d

/-- `__dict__` of `SubscribeRequest(worker_id, pubkey, tags)` (conftest.py:272-279). -/
def subscribeRequestObj (wid : String) (pk : Bytes) (tags : List (String × String)) : Obj :=
  [("worker_id", .vstr wid), ("pubkey", .vbytes pk), ("tags", .vmap tags)]

/-- `SubscribeRequest._bytes_fields`. -/
def subscribeRequestBF : List String := ["pubkey"]

/-- `__dict__` of `SubscribeResponse(token, wrapped_key, key_id)` (conftest.py:282-289). -/
def subscribeResponseObj (token : String) (wk : Bytes) (kid : String) : Obj :=
  [("token", .vstr token), ("wrapped_key", .vbytes wk), ("key_id", .vstr kid)]

/-- `SubscribeResponse._bytes_fields`. -/
def subscribeResponseBF : List String := ["wrapped_key"]

/-- `__dict__` of `ProcessRequest(...)` (conftest.py:292-303). -/
def processRequestObj (db ek sid op : String) (p : Bytes) (tok : String) : Obj :=
  [("database_name", .vstr db), ("entity_key", .vstr ek), ("schema_id", .vstr sid),
   ("operation", .vstr op), ("payload", .vbytes p), ("token", .vstr tok)]

/-- `ProcessRequest._bytes_fields`. -/
def processRequestBF : List String := ["payload"]

/-- `__dict__` of `ProcessResponse(status, result, version, error)` (conftest.py:306-314). -/
def processResponseObj (st : String) (res : Bytes) (ver err : String) : Obj :=
  [("status", .vstr st), ("result", .vbytes res), ("version", .vstr ver), ("error", .vstr err)]

/-- `ProcessResponse._bytes_fields`. -/
def processResponseBF : List String := ["result"]

/-! ## `Process` RPC handler (`tests/test_task_8.py`, `MockProcWorker.Process`)

`context.abort(code, msg)` raises, so a handler call either aborts with a
gRPC status code or returns a response; the in-memory `store` dict is the only
state and is mutated on the PUT branch only. -/

/-- gRPC status codes used by the embedded handlers. -/
inductive StatusCode where
  | INVALID_ARGUMENT
  | NOT_FOUND
  | UNAUTHENTICATED
deriving DecidableEq

/-- A typed `ProcessRequest` as consumed by the handlers. -/
structure ProcessRequest where
  database_name : String
  entity_key : String
  schema_id : String
  operation : String
  payload : Bytes
  token : String
deriving DecidableEq

/-- A typed `ProcessResponse`; omitted keyword arguments take the class
defaults (`""` / `b""`). -/
structure ProcessResponse where
  status : String
  result : Bytes
  version : String
  error : String
deriving DecidableEq

/-- The mock worker's in-memory store: `dict[str, bytes]`. -/
abbrev Store := List (String × Bytes)

/-- `MockProcWorker.Process` (test_task_8.py:150-168): reject any operation
outside `{GET, PUT}` with `INVALID_ARGUMENT`; on PUT store the payload under
`f"{database_name}_{entity_key}"` and answer `status="OK", version="1"`; on
GET look the key up, aborting with `NOT_FOUND` when absent, else answer
`status="OK"` with the stored value. -/
def Process (store : Store) (req : ProcessRequest) :
    Store × Except StatusCode ProcessResponse :=
  if ¬ (req.operation = "GET" ∨ req.operation = "PUT") then
    (store, .error .INVALID_ARGUMENT)
  else if req.operation = "PUT" then
    let key := req.database_name ++ "_" ++ req.entity_key
    (aset store key req.payload,
     .ok { status := "OK", result := [], version := "1", error := "" })
  else
    let key := req.database_name ++ "_" ++ req.entity_key
    match alookup store key with
    | none => (store, .error .NOT_FOUND)
    | some v => (store, .ok { status := "OK", result := v, version := "1", error := "" })

/-! ## `Subscribe` RPC handler (`tests/test_task_7.py`, `MockMainWorker.Subscribe`)

The RSA primitives (`load_pem_public_key`, OAEP `encrypt`) come from the
`cryptography` library, outside this repository; they are abstracted as a
partial PEM loader `loadPem` (also covering an `encrypt` failure, both abort
with `INVALID_ARGUMENT`) and a total encryption function `enc` over the loaded
public key. -/

/-- A typed `SubscribeRequest`. -/
structure SubscribeRequest where
  worker_id : String
  pubkey : Bytes
  tags : List (String × String)

/-- A typed `SubscribeResponse`. -/
structure SubscribeResponse where
  token : String
  wrapped_key : Bytes
  key_id : String

/-- A registry entry recorded by `Subscribe` (test_task_7.py:261-265). -/
structure WorkerRec where
  status : String
  token : String
  key_id : String
deriving DecidableEq

/-- The mock main worker's registry dict. -/
abbrev Registry := List (String × WorkerRec)

/-- `MockMainWorker._dummy_key = bytes(32)`: the 32-byte master key. -/
def mockMasterKey : Bytes := List.replicate 32 0

/-- `MockMainWorker.Subscribe` (test_task_7.py:240-271): abort with
`INVALID_ARGUMENT` on an empty `worker_id` or empty `pubkey` or a key the
library fails to load; otherwise wrap the master key for the caller's public
key, record the worker as `Available` and return `{token, wrapped_key, key_id}`. -/
def Subscribe {κ : Type} (loadPem : Bytes → Option κ) (enc : κ → Bytes → Bytes)
    (reg : Registry) (req : SubscribeRequest) :
    Registry × Except StatusCode SubscribeResponse :=
  if req.worker_id = "" then (reg, .error .INVALID_ARGUMENT)
  else if req.pubkey = [] then (reg, .error .INVALID_ARGUMENT)
  else
    match loadPem req.pubkey with
    | none => (reg, .error .INVALID_ARGUMENT)
    | some pub =>
      let wrapped := enc pub mockMasterKey
      let token := "mock-token-" ++ req.worker_id
      (aset reg req.worker_id { status := "Available", token := token, key_id := "mock-key-1" },
       .ok { token := token, wrapped_key := wrapped, key_id := "mock-key-1" })

/-! ## Spec-modelled components

The Go binaries `cmd/main-worker` and `cmd/proc-worker` are not part of the
source tree here; the versioned persistence pipeline and the REST
authorization gate are therefore modelled from the specification text. -/

/-- A persisted entity as far as versioning is concerned: the stored payload
together with the metadata `version`. -/
abbrev VStore := List (String × (Bytes × Nat))

/-- Modelled from the spec: the version step of the ProcWorker PUT pipeline
(§4.5 step 4, invariant P3) — the Go implementation (`cmd/proc-worker`) is not
under `src/`.  Under the entity lock the existing metadata, if any, gives
`version = prev.version + 1` (else 1); payload and the new version are then
persisted for the entity key.  Returns the new store and the version of the
write. -/
def pipelinePut (s : VStore) (db k : String) (p : Bytes) : VStore × Nat :=
  let key := db ++ "_" ++ k
  let v := match alookup s key with
           | some (_, pv) => pv + 1
           | none => 1
  (aset s key (p, v), v)

/-- Modelled from the spec: the read side of the ProcWorker pipeline (§4.5 GET
step 5) restricted to what versioning observes — returns the persisted
`(plaintext, version)` of the entity, `none` when absent. -/
def pipelineGet (s : VStore) (db k : String) : Option (Bytes × Nat) :=
  alookup s (db ++ "_" ++ k)

/-- Permissions of an RBAC key (§3 AuthKey). -/
inductive Perm where
  | read
  | write
  | admin
deriving DecidableEq

/-- Modelled from the spec: an AuthKey record as far as bearer verification is
concerned — secret, permission set, and whether it is expired or deleted. -/
structure AuthRecord where
  secret : String
  perms : List Perm
  expired : Bool
deriving DecidableEq

/-- Modelled from the spec: strict `Authorization` header parsing (§6) — only
the exact `Bearer <token>` scheme is accepted.  The header is its character
sequence. -/
def parseBearer : List Char → Option String
  | 'B' :: 'e' :: 'a' :: 'r' :: 'e' :: 'r' :: ' ' :: tok => some (String.mk tok)
  | _ => none

/-- A token authorizes `GET /admin/workers` when some non-expired AuthKey has
that secret and carries `read` or `admin` (§4.6 permission gate). -/
def tokenAllowsWorkers (keys : List AuthRecord) (tok : String) : Bool :=
  keys.any fun r =>
    r.secret = tok && !r.expired && (r.perms.contains Perm.read || r.perms.contains Perm.admin)

/-- Whether a request's `Authorization` header carries a valid bearer token
with at least `read` or `admin`. -/
def headerAllowsWorkers (keys : List AuthRecord) (hdr : Option (List Char)) : Bool :=
  match hdr with
  | none => false
  | some h =>
    match parseBearer h with
    | none => false
    | some tok => tokenAllowsWorkers keys tok

/-- Modelled from the spec: the `GET /admin/workers` endpoint (§4.6, §6) — the
Go REST front-end is not under `src/`.  A missing or non-Bearer header is
rejected `401`; a bearer token without `read` or `admin` is rejected `403`;
only a valid token receives `200` with the worker list. -/
def handleAdminWorkers (keys : List AuthRecord) (reg : List WorkerRec)
    (hdr : Option (List Char)) : Nat × Option (List WorkerRec) :=
  match hdr with
  | none => (401, none)
  | some h =>
    match parseBearer h with
    | none => (401, none)
    | some tok =>
      if tokenAllowsWorkers keys tok then (200, some reg) else (403, none)

/-! ## Chat application (`examples/chat/app.py`)

Chat documents are JSON objects; only the `"deleted"` truthiness and the
`"username"` string comparison matter to ownership, so document values are a
small JSON type with Python truthiness.  The DeltaDatabase behind `delta_get`
/ `delta_put` is abstracted per database as a dict from entity key to
document. -/

/-- A JSON value stored in a chat document. -/
inductive JVal where
  | jnull
  | jbool : Bool → JVal
  | jstr : String → JVal
  | jnum : Int → JVal
  | jarr : List JVal → JVal
  | jobj : List (String × JVal) → JVal

/-- A chat document (a JSON object). -/
abbrev Doc := List (String × JVal)

/-- Python truthiness of `doc.get(field)`: `None` (absent), `False`, `0`,
`""`, `[]` and `{}` are falsy. -/
def truthy : Option JVal → Bool
  | none => false
  | some .jnull => false
  | some (.jbool b) => b
  | some (.jstr s) => !(s = "")
  | some (.jnum n) => !(n = 0)
  | some (.jarr l) => !l.isEmpty
  | some (.jobj o) => !o.isEmpty

/-- The `chat_sessions` database, keyed by `f"{username}__{chat_id}"`. -/
abbrev ChatStore := List (String × Doc)

/-- Whether `cd.get("username") == username` in Python: the field is present,
is a string, and equals the given user. -/
def usernameIs (cd : Doc) (username : String) : Bool :=
  match alookup cd "username" with
  | some (.jstr s) => s = username
  | _ => false

/-- `_get_own_chat` (app.py:471-476): fetch `f"{username}__{chat_id}"` and
return the document only if it is present, not tombstoned, and its
`"username"` field equals the requesting user; otherwise `None`. -/
def getOwnChat (store : ChatStore) (username chat_id : String) : Option Doc :=
  match alookup store (username ++ "__" ++ chat_id) with
  | none => none
  | some cd =>
    if truthy (alookup cd "deleted") then none
    else if !usernameIs cd username then none
    else some cd

/-- `"[mock] You said: " + user_message` (app.py:321, `MOCK_OPENAI` branch). -/
def mockReply (msg : String) : String := "[mock] You said: " ++ msg

/-- Auto-title from the first user turn (app.py:340-341). -/
def autoTitle (msg : String) : String :=
  if msg.length > 50 then msg.take 50 ++ "…" else msg

/-- Whether `chat_data.get("title") == "New Chat"` in Python. -/
def titleIsNewChat (cd : Doc) : Bool :=
  match alookup cd "title" with
  | some (.jstr s) => s = "New Chat"
  | _ => false

/-- `send_message` (app.py:296-348) restricted to the `chat_sessions`
database, in the deterministic `MOCK_OPENAI=true` branch (the live-OpenAI
branch differs only by returning 400/500 without writing).  Reads of
`chat_user_config` / `chat_admin_config` and the `model` selection touch other
databases and carry no `chat_sessions` effect.  An empty (stripped) message is
rejected 400; a chat not owned by the user is rejected 404; a document whose
`"messages"` value is not a list makes Python raise (Flask answers 500); in
each of these cases nothing is written.  Otherwise the user and assistant
turns are appended, the title is auto-set on first turn, `updated_at` is
stamped, and the document is written back under `f"{username}__{chat_id}"`. -/
def sendMessage (store : ChatStore) (username chat_id rawMsg now : String) :
    ChatStore × Nat :=
  let user_message := rawMsg.trim
  if user_message = "" then (store, 400)
  else
    match getOwnChat store username chat_id with
    | none => (store, 404)
    | some cd =>
      let msgs : Option (List JVal) :=
        match alookup cd "messages" with
        | none => some []
        | some (.jarr l) => some l
        | some _ => none
      match msgs with
      | none => (store, 500)
      | some l =>
        let msgs2 := l ++
          [JVal.jobj [("role", .jstr "user"), ("content", .jstr user_message)],
           JVal.jobj [("role", .jstr "assistant"), ("content", .jstr (mockReply user_message))]]
        let cd1 := if titleIsNewChat cd then aset cd "title" (.jstr (autoTitle user_message)) else cd
        let cd2 := aset (aset cd1 "messages" (.jarr msgs2)) "updated_at" (.jstr now)
        (aset store (username ++ "__" ++ chat_id) cd2, 200)

/-! ## Helper lemmas -/

theorem alookup_append {α : Type} (l1 l2 : List (String × α)) (k : String) :
    alookup (l1 ++ l2) k =
      (match alookup l1 k with
       | some v => some v
       | none => alookup l2 k) := by
  induction l1 with
  | nil => simp [alookup]
  | cons hd tl ih =>
    obtain ⟨k0, v0⟩ := hd
    by_cases h : k0 = k
    · simp [alookup, h]
    · simp [alookup, h, ih]

theorem objEquiv_refl (d : Obj) : objEquiv d d := fun _ => rfl

/-- Moving a binding whose key collides with nothing else from the middle to
the end of an association list does not change lookups. -/
theorem objEquiv_move_to_end (pre post : Obj) (f : String) (v : Val)
    (hpost : alookup post f = none) :
    objEquiv (pre ++ post ++ [(f, v)]) (pre ++ [(f, v)] ++ post) := by
  intro k
  simp only [List.append_assoc, alookup_append]
  cases hk : alookup pre k with
  | some w => rfl
  | none =>
    by_cases hfk : f = k
    · subst hfk
      simp [alookup, hpost]
    · cases hk2 : alookup post k with
      | some w => simp [alookup, hfk]
      | none => simp [alookup, hfk]

/-- A decoded entry keeps its key. -/
theorem wireEntry_key (bf : List String) (k : String) (v : Val) (e : String × Val)
    (h : wireEntry bf k v = some e) : e.1 = k := by
  rcases v with s | b | m
  · rw [wireEntry] at h
    by_cases hm : k ∈ bf
    · rw [if_pos hm] at h
      cases hb : b64decodeStr s with
      | none => rw [hb] at h; simp at h
      | some bs => rw [hb] at h; simp at h; rw [← h]
    · rw [if_neg hm] at h
      simp at h; rw [← h]
  · simp [wireEntry] at h; rw [← h]
  · simp [wireEntry] at h; rw [← h]

/-- `fromWireEntries` keeps exactly the keys of its input. -/
theorem fromWireEntries_none_of_none (bf : List String) (d o : Obj) (f : String)
    (h : fromWireEntries bf d = some o) (habs : alookup d f = none) :
    alookup o f = none := by
  induction d generalizing o with
  | nil =>
    simp [fromWireEntries] at h
    subst h
    exact habs
  | cons hd tl ih =>
    obtain ⟨k0, v0⟩ := hd
    have hk0 : k0 ≠ f := by
      intro hk
      subst hk
      simp [alookup] at habs
    have htl : alookup tl f = none := by
      simpa [alookup, hk0] using habs
    rw [fromWireEntries] at h
    cases hv : wireEntry bf k0 v0 with
    | none =>
      rw [hv] at h
      simp at h
    | some e =>
      rw [hv] at h
      simp only [Option.some_bind] at h
      cases ho : fromWireEntries bf tl with
      | none => rw [ho] at h; simp at h
      | some o' =>
        rw [ho] at h
        simp only [Option.map_some'] at h
        have he := wireEntry_key bf k0 v0 e hv
        injection h with h2
        subst h2
        obtain ⟨e1, e2⟩ := e
        simp only at he
        subst he
        simp [alookup, hk0, ih o' ho htl]

/-- Looking a key up in the defaults block: a key of the list maps to the
constant value. -/
theorem alookup_map_const (l : List String) (f : String) (v : Val) (hf : f ∈ l) :
    alookup (l.map (fun g => (g, v))) f = some v := by
  induction l with
  | nil => cases hf
  | cons hd tl ih =>
    rcases List.mem_cons.mp hf with h | h
    · subst h; simp [alookup]
    · by_cases hh : hd = f
      · subst hh; simp [alookup]
      · simp [alookup, hh, ih h]

theorem toWire_nil (bf : List String) : toWire bf [] = [] := rfl

theorem toWire_cons_vstr (bf : List String) (k s : String) (rest : Obj) :
    toWire bf ((k, Val.vstr s) :: rest) =
      (if s = "" then [] else [(k, Val.vstr s)]) ++ toWire bf rest := by
  rw [toWire]
  split_ifs <;> simp

theorem toWire_cons_vbytes_mem (bf : List String) (k : String) (b : Bytes) (rest : Obj)
    (h : k ∈ bf) :
    toWire bf ((k, Val.vbytes b) :: rest) =
      (if b = [] then [] else [(k, Val.vstr (b64encodeStr b))]) ++ toWire bf rest := by
  rw [toWire]
  simp only [if_pos h]
  split_ifs <;> simp

theorem toWire_cons_vmap (bf : List String) (k : String) (m : List (String × String))
    (rest : Obj) :
    toWire bf ((k, Val.vmap m) :: rest) =
      (if m = [] then [] else [(k, Val.vmap m)]) ++ toWire bf rest := by
  rw [toWire]
  split_ifs <;> simp

/-- Serialization of a `SubscribeRequest`: non-empty fields survive in order,
the bytes field as base64; empty fields are omitted. -/
theorem toWire_subscribeRequest (wid : String) (pk : Bytes) (tags : List (String × String)) :
    toWire subscribeRequestBF (subscribeRequestObj wid pk tags) =
      (if wid = "" then [] else [("worker_id", Val.vstr wid)]) ++
      (if pk = [] then [] else [("pubkey", Val.vstr (b64encodeStr pk))]) ++
      (if tags = [] then [] else [("tags", Val.vmap tags)]) := by
  simp [subscribeRequestObj, subscribeRequestBF, toWire_cons_vstr, toWire_cons_vbytes_mem,
    toWire_cons_vmap, toWire_nil, List.append_assoc]

/-- Wire roundtrip for a `SubscribeRequest` whose string and map fields are
non-empty. -/
theorem roundtrip_subscribeRequest (wid : String) (pk : Bytes) (tags : List (String × String))
    (hw : wid ≠ "") (ht : tags ≠ []) (hpk : isBytes pk) :
    wireRoundtrips subscribeRequestBF (subscribeRequestObj wid pk tags) := by
  have hb64 : b64decodeStr (b64encodeStr pk) = some pk := b64_roundtrip pk hpk
  by_cases hp : pk = []
  · subst hp
    refine ⟨[("worker_id", .vstr wid), ("tags", .vmap tags), ("pubkey", .vbytes [])], ?_, ?_⟩
    · simp [subscribeRequestObj, subscribeRequestBF, toWire, fromWire, fromWireEntries,
        wireEntry, hw, ht, alookup]
    · exact objEquiv_move_to_end [("worker_id", .vstr wid)] [("tags", .vmap tags)]
        "pubkey" (.vbytes []) (by simp [alookup])
  · refine ⟨subscribeRequestObj wid pk tags, ?_, objEquiv_refl _⟩
    simp [subscribeRequestObj, subscribeRequestBF, toWire, fromWire, fromWireEntries,
      wireEntry, hw, ht, hp, hb64, alookup]

/-- Serialization of a `SubscribeResponse`. -/
theorem toWire_subscribeResponse (token : String) (wk : Bytes) (kid : String) :
    toWire subscribeResponseBF (subscribeResponseObj token wk kid) =
      (if token = "" then [] else [("token", Val.vstr token)]) ++
      (if wk = [] then [] else [("wrapped_key", Val.vstr (b64encodeStr wk))]) ++
      (if kid = "" then [] else [("key_id", Val.vstr kid)]) := by
  simp [subscribeResponseObj, subscribeResponseBF, toWire_cons_vstr, toWire_cons_vbytes_mem,
    toWire_cons_vmap, toWire_nil, List.append_assoc]

/-- Wire roundtrip for a `SubscribeResponse` whose string fields are
non-empty. -/
theorem roundtrip_subscribeResponse (token : String) (wk : Bytes) (kid : String)
    (ht : token ≠ "") (hk : kid ≠ "") (hwk : isBytes wk) :
    wireRoundtrips subscribeResponseBF (subscribeResponseObj token wk kid) := by
  have hb64 : b64decodeStr (b64encodeStr wk) = some wk := b64_roundtrip wk hwk
  by_cases hp : wk = []
  · subst hp
    refine ⟨[("token", .vstr token), ("key_id", .vstr kid), ("wrapped_key", .vbytes [])], ?_, ?_⟩
    · simp [subscribeResponseObj, subscribeResponseBF, toWire, fromWire, fromWireEntries,
        wireEntry, ht, hk, alookup]
    · exact objEquiv_move_to_end [("token", .vstr token)] [("key_id", .vstr kid)]
        "wrapped_key" (.vbytes []) (by simp [alookup])
  · refine ⟨subscribeResponseObj token wk kid, ?_, objEquiv_refl _⟩
    simp [subscribeResponseObj, subscribeResponseBF, toWire, fromWire, fromWireEntries,
      wireEntry, ht, hk, hp, hb64, alookup]

/-- Serialization of a `ProcessRequest`. -/
theorem toWire_processRequest (db ek sid op : String) (p : Bytes) (tok : String) :
    toWire processRequestBF (processRequestObj db ek sid op p tok) =
      (if db = "" then [] else [("database_name", Val.vstr db)]) ++
      (if ek = "" then [] else [("entity_key", Val.vstr ek)]) ++
      (if sid = "" then [] else [("schema_id", Val.vstr sid)]) ++
      (if op = "" then [] else [("operation", Val.vstr op)]) ++
      (if p = [] then [] else [("payload", Val.vstr (b64encodeStr p))]) ++
      (if tok = "" then [] else [("token", Val.vstr tok)]) := by
  simp [processRequestObj, processRequestBF, toWire_cons_vstr, toWire_cons_vbytes_mem,
    toWire_cons_vmap, toWire_nil, List.append_assoc]

/-- Wire roundtrip for a `ProcessRequest` whose string fields are non-empty. -/
theorem roundtrip_processRequest (db ek sid op : String) (p : Bytes) (tok : String)
    (hdb : db ≠ "") (hek : ek ≠ "") (hsid : sid ≠ "") (hop : op ≠ "") (htok : tok ≠ "")
    (hp : isBytes p) :
    wireRoundtrips processRequestBF (processRequestObj db ek sid op p tok) := by
  have hb64 : b64decodeStr (b64encodeStr p) = some p := b64_roundtrip p hp
  by_cases hp0 : p = []
  · subst hp0
    refine ⟨[("database_name", .vstr db), ("entity_key", .vstr ek), ("schema_id", .vstr sid),
        ("operation", .vstr op), ("token", .vstr tok), ("payload", .vbytes [])], ?_, ?_⟩
    · simp [processRequestObj, processRequestBF, toWire, fromWire, fromWireEntries,
        wireEntry, hdb, hek, hsid, hop, htok, alookup]
    · exact objEquiv_move_to_end
        [("database_name", .vstr db), ("entity_key", .vstr ek), ("schema_id", .vstr sid),
         ("operation", .vstr op)]
        [("token", .vstr tok)] "payload" (.vbytes []) (by simp [alookup])
  · refine ⟨processRequestObj db ek sid op p tok, ?_, objEquiv_refl _⟩
    simp [processRequestObj, processRequestBF, toWire, fromWire, fromWireEntries,
      wireEntry, hdb, hek, hsid, hop, htok, hp0, hb64, alookup]

/-- Serialization of a `ProcessResponse`. -/
theorem toWire_processResponse (st : String) (res : Bytes) (ver err : String) :
    toWire processResponseBF (processResponseObj st res ver err) =
      (if st = "" then [] else [("status", Val.vstr st)]) ++
      (if res = [] then [] else [("result", Val.vstr (b64encodeStr res))]) ++
      (if ver = "" then [] else [("version", Val.vstr ver)]) ++
      (if err = "" then [] else [("error", Val.vstr err)]) := by
  simp [processResponseObj, processResponseBF, toWire_cons_vstr, toWire_cons_vbytes_mem,
    toWire_cons_vmap, toWire_nil, List.append_assoc]

/-- Wire roundtrip for a `ProcessResponse` whose string fields are non-empty. -/
theorem roundtrip_processResponse (st : String) (res : Bytes) (ver err : String)
    (hst : st ≠ "") (hver : ver ≠ "") (herr : err ≠ "") (hres : isBytes res) :
    wireRoundtrips processResponseBF (processResponseObj st res ver err) := by
  have hb64 : b64decodeStr (b64encodeStr res) = some res := b64_roundtrip res hres
  by_cases hp0 : res = []
  · subst hp0
    refine ⟨[("status", .vstr st), ("version", .vstr ver), ("error", .vstr err),
        ("result", .vbytes [])], ?_, ?_⟩
    · simp [processResponseObj, processResponseBF, toWire, fromWire, fromWireEntries,
        wireEntry, hst, hver, herr, alookup]
    · exact objEquiv_move_to_end [("status", .vstr st)]
        [("version", .vstr ver), ("error", .vstr err)] "result" (.vbytes [])
        (by simp [alookup])
  · refine ⟨processResponseObj st res ver err, ?_, objEquiv_refl _⟩
    simp [processResponseObj, processResponseBF, toWire, fromWire, fromWireEntries,
      wireEntry, hst, hver, herr, hp0, hb64, alookup]

/-! ## Claims -/

/-- C1: for every entity `(database, key)`, a successful `Process(PUT)` with
payload `p` immediately followed by `Process(GET)` on the same pair — no
intervening write — returns status `"OK"` and a result equal to `p`. -/
theorem mock_put_then_get_returns_payload (store : Store)
    (db k sid sid' tok tok' : String) (p : Bytes) :
    (Process store ⟨db, k, sid, "PUT", p, tok⟩).2 =
      .ok ⟨"OK", [], "1", ""⟩ ∧
    (Process (Process store ⟨db, k, sid, "PUT", p, tok⟩).1
      ⟨db, k, sid', "GET", [], tok'⟩).2 =
      .ok ⟨"OK", p, "1", ""⟩ := by
  constructor
  · simp [Process]
  · simp [Process, alookup_aset_self]

/-- C2 (spec-modelled): for every store state, a write's version equals the
previously persisted version plus 1 (1 when none existed), and a subsequent
read returns the written payload with that version. -/
theorem put_pipeline_version_step (s : VStore) (db k : String) (p : Bytes) :
    (pipelinePut s db k p).2 =
      (match pipelineGet s db k with
       | some (_, pv) => pv + 1
       | none => 1) ∧
    pipelineGet (pipelinePut s db k p).1 db k = some (p, (pipelinePut s db k p).2) := by
  constructor
  · rfl
  · simp [pipelinePut, pipelineGet, alookup_aset_self]

/-- C3 (counterexample): the codec roundtrip is not the identity on every
message — a `SubscribeRequest` with empty `worker_id` (and empty `tags`)
serializes without those fields, and deserializing does not restore them, so
the result is not dict-equal to the original. -/
theorem codec_roundtrip_fails_on_empty_string_field :
    fromWire subscribeRequestBF (toWire subscribeRequestBF (subscribeRequestObj "" [1] [])) =
      some [("pubkey", Val.vbytes [1])] ∧
    ¬ wireRoundtrips subscribeRequestBF (subscribeRequestObj "" [1] []) := by
  have hcomp : fromWire subscribeRequestBF
      (toWire subscribeRequestBF (subscribeRequestObj "" [1] [])) =
      some [("pubkey", Val.vbytes [1])] := by decide
  refine ⟨hcomp, ?_⟩
  rintro ⟨d', h1, h2⟩
  rw [hcomp] at h1
  injection h1 with h1'
  subst h1'
  have hw := h2 "worker_id"
  simp [alookup, subscribeRequestObj] at hw

/-- C3 (amended): serialization keeps the declared fields in order,
base64-encoding every non-empty bytes field and omitting every empty
string/bytes/map field; and for every message of the four classes whose
string and map fields are non-empty, deserializing the serialized form yields
a message dict-equal to the original (bytes fields, empty or not, decode back
to the same bytes). -/
theorem codec_wire_contract :
    (∀ wid pk tags, toWire subscribeRequestBF (subscribeRequestObj wid pk tags) =
        (if wid = "" then [] else [("worker_id", Val.vstr wid)]) ++
        (if pk = [] then [] else [("pubkey", Val.vstr (b64encodeStr pk))]) ++
        (if tags = [] then [] else [("tags", Val.vmap tags)])) ∧
    (∀ token wk kid, toWire subscribeResponseBF (subscribeResponseObj token wk kid) =
        (if token = "" then [] else [("token", Val.vstr token)]) ++
        (if wk = [] then [] else [("wrapped_key", Val.vstr (b64encodeStr wk))]) ++
        (if kid = "" then [] else [("key_id", Val.vstr kid)])) ∧
    (∀ db ek sid op p tok, toWire processRequestBF (processRequestObj db ek sid op p tok) =
        (if db = "" then [] else [("database_name", Val.vstr db)]) ++
        (if ek = "" then [] else [("entity_key", Val.vstr ek)]) ++
        (if sid = "" then [] else [("schema_id", Val.vstr sid)]) ++
        (if op = "" then [] else [("operation", Val.vstr op)]) ++
        (if p = [] then [] else [("payload", Val.vstr (b64encodeStr p))]) ++
        (if tok = "" then [] else [("token", Val.vstr tok)])) ∧
    (∀ st res ver err, toWire processResponseBF (processResponseObj st res ver err) =
        (if st = "" then [] else [("status", Val.vstr st)]) ++
        (if res = [] then [] else [("result", Val.vstr (b64encodeStr res))]) ++
        (if ver = "" then [] else [("version", Val.vstr ver)]) ++
        (if err = "" then [] else [("error", Val.vstr err)])) ∧
    (∀ wid pk tags, wid ≠ "" → tags ≠ [] → isBytes pk →
      wireRoundtrips subscribeRequestBF (subscribeRequestObj wid pk tags)) ∧
    (∀ token wk kid, token ≠ "" → kid ≠ "" → isBytes wk →
      wireRoundtrips subscribeResponseBF (subscribeResponseObj token wk kid)) ∧
    (∀ db ek sid op p tok, db ≠ "" → ek ≠ "" → sid ≠ "" → op ≠ "" → tok ≠ "" → isBytes p →
      wireRoundtrips processRequestBF (processRequestObj db ek sid op p tok)) ∧
    (∀ st res ver err, st ≠ "" → ver ≠ "" → err ≠ "" → isBytes res →
      wireRoundtrips processResponseBF (processResponseObj st res ver err)) :=
  ⟨toWire_subscribeRequest, toWire_subscribeResponse, toWire_processRequest,
   toWire_processResponse, roundtrip_subscribeRequest, roundtrip_subscribeResponse,
   roundtrip_processRequest, roundtrip_processResponse⟩

/-- C3 witness: the amended roundtrip at concrete messages of all four
classes, including an empty bytes field. -/
theorem codec_wire_contract_witness :
    wireRoundtrips subscribeRequestBF (subscribeRequestObj "w1" [0, 255] [("k", "v")]) ∧
    wireRoundtrips subscribeResponseBF (subscribeResponseObj "tok" [7] "kid") ∧
    wireRoundtrips processRequestBF
      (processRequestObj "chatdb" "Chat_id" "chat.v1" "PUT" [123] "tok") ∧
    wireRoundtrips processResponseBF (processResponseObj "OK" [] "1" "err") := by
  refine ⟨?_, ?_, ?_, ?_⟩
  · exact codec_wire_contract.2.2.2.2.1 "w1" [0, 255] [("k", "v")]
      (by decide) (by decide) (by decide)
  · exact codec_wire_contract.2.2.2.2.2.1 "tok" [7] "kid" (by decide) (by decide) (by decide)
  · exact codec_wire_contract.2.2.2.2.2.2.1 "chatdb" "Chat_id" "chat.v1" "PUT" [123] "tok"
      (by decide) (by decide) (by decide) (by decide) (by decide) (by decide)
  · exact codec_wire_contract.2.2.2.2.2.2.2 "OK" [] "1" "err"
      (by decide) (by decide) (by decide) (by decide)

/-- C4 (spec-modelled): a `GET /admin/workers` request whose header does not
carry a valid bearer token with `read` or `admin` is rejected with 401 or 403
and never receives the worker list. -/
theorem admin_workers_rejects_unauthorized (keys : List AuthRecord)
    (reg : List WorkerRec) (hdr : Option (List Char))
    (h : headerAllowsWorkers keys hdr = false) :
    ((handleAdminWorkers keys reg hdr).1 = 401 ∨ (handleAdminWorkers keys reg hdr).1 = 403) ∧
    (handleAdminWorkers keys reg hdr).1 ≠ 200 ∧
    (handleAdminWorkers keys reg hdr).2 = none := by
  cases hdr with
  | none => simp [handleAdminWorkers]
  | some s =>
    rw [headerAllowsWorkers] at h
    cases hp : parseBearer s with
    | none => simp [handleAdminWorkers, hp]
    | some tok =>
      rw [hp] at h
      simp only [] at h
      simp [handleAdminWorkers, hp, h]

/-- C4 witness: a request with no `Authorization` header at all. -/
theorem admin_workers_rejects_unauthorized_witness :
    headerAllowsWorkers [] none = false ∧
    ((handleAdminWorkers [] [] none).1 = 401 ∨ (handleAdminWorkers [] [] none).1 = 403) ∧
    (handleAdminWorkers [] [] none).1 ≠ 200 ∧
    (handleAdminWorkers [] [] none).2 = none :=
  ⟨rfl, admin_workers_rejects_unauthorized [] [] none rfl⟩

/-- C5: `Process` with an operation outside `{GET, PUT}` returns
`INVALID_ARGUMENT` and leaves the store untouched. -/
theorem process_rejects_unknown_operation (store : Store) (req : ProcessRequest)
    (h1 : req.operation ≠ "GET") (h2 : req.operation ≠ "PUT") :
    Process store req = (store, .error .INVALID_ARGUMENT) := by
  simp [Process, h1, h2]

/-- C5 witness: the operation `"DELETE"` from the test suite. -/
theorem process_rejects_unknown_operation_witness :
    ("DELETE" : String) ≠ "GET" ∧ ("DELETE" : String) ≠ "PUT" ∧
    Process [] ⟨"chatdb", "Chat_id", "", "DELETE", [], "tok"⟩ =
      ([], .error .INVALID_ARGUMENT) :=
  ⟨by decide, by decide,
   process_rejects_unknown_operation [] _ (by decide) (by decide)⟩

/-- C6: `Process(GET)` on a `(database, key)` with no stored entity fails with
`NOT_FOUND` and returns no result. -/
theorem process_get_missing_entity_not_found (store : Store)
    (db k sid tok : String) (p : Bytes)
    (h : alookup store (db ++ "_" ++ k) = none) :
    Process store ⟨db, k, sid, "GET", p, tok⟩ =
      (store, .error .NOT_FOUND) := by
  simp [Process, h]

/-- C6 witness: a GET against the empty store. -/
theorem process_get_missing_entity_not_found_witness :
    alookup ([] : Store) ("missingdb" ++ "_" ++ "no_such_key") = none ∧
    Process [] ⟨"missingdb", "no_such_key", "", "GET", [], "tok"⟩ =
      ([], .error .NOT_FOUND) :=
  ⟨rfl, process_get_missing_entity_not_found [] "missingdb" "no_such_key" "" "tok" [] rfl⟩

/-- C7: `Subscribe` with an empty `worker_id` is rejected with
`INVALID_ARGUMENT` and records no `WorkerRecord`. -/
theorem subscribe_rejects_empty_worker_id {κ : Type} (loadPem : Bytes → Option κ)
    (enc : κ → Bytes → Bytes) (reg : Registry) (pk : Bytes)
    (tags : List (String × String)) :
    Subscribe loadPem enc reg ⟨"", pk, tags⟩ =
      (reg, .error .INVALID_ARGUMENT) := by
  simp [Subscribe]

/-- C8: `Subscribe` with a loadable public key wraps exactly the 32-byte
master key, so decryption with the matching private key (the inverse of
encryption under the same OAEP parameters) recovers it. -/
theorem subscribe_wraps_master_key {κ : Type} (loadPem : Bytes → Option κ)
    (enc : κ → Bytes → Bytes) (dec : Bytes → Option Bytes)
    (reg : Registry) (wid : String) (pem : Bytes) (tags : List (String × String))
    (pub : κ) (hwid : wid ≠ "") (hpem : pem ≠ []) (hload : loadPem pem = some pub)
    (hdec : ∀ m, dec (enc pub m) = some m) :
    ∃ resp, (Subscribe loadPem enc reg ⟨wid, pem, tags⟩).2 = .ok resp ∧
      resp.wrapped_key = enc pub mockMasterKey ∧
      dec resp.wrapped_key = some mockMasterKey ∧
      mockMasterKey.length = 32 := by
  have hres : (Subscribe loadPem enc reg ⟨wid, pem, tags⟩).2 =
      .ok ⟨"mock-token-" ++ wid, enc pub mockMasterKey, "mock-key-1"⟩ := by
    simp [Subscribe, hwid, hpem, hload]
  exact ⟨_, hres, rfl, hdec _, by simp [mockMasterKey]⟩

/-- C8 witness: the identity scheme on a one-byte PEM. -/
theorem subscribe_wraps_master_key_witness :
    ("w1" : String) ≠ "" ∧ ([1] : Bytes) ≠ [] ∧
    ∃ resp, (Subscribe (fun _ : Bytes => some ()) (fun _ m => m) []
        ⟨"w1", [1], []⟩).2 = .ok resp ∧
      resp.wrapped_key = mockMasterKey ∧
      some resp.wrapped_key = some mockMasterKey ∧
      mockMasterKey.length = 32 :=
  ⟨by decide, by decide,
   subscribe_wraps_master_key (fun _ : Bytes => some ()) (fun _ m => m) some [] "w1" [1] []
     () (by decide) (by decide) rfl (fun _ => rfl)⟩

/-- C9: deserializing a wire object in which a declared bytes field is absent
yields (when deserialization completes) a message whose bytes field is the
empty byte string. -/
theorem from_wire_defaults_absent_bytes_field (bf : List String) (d m : Obj) (f : String)
    (hf : f ∈ bf) (habs : alookup d f = none) (hm : fromWire bf d = some m) :
    alookup m f = some (.vbytes []) := by
  rw [fromWire] at hm
  cases ho : fromWireEntries bf d with
  | none => rw [ho] at hm; simp at hm
  | some o =>
    rw [ho] at hm
    simp only [Option.map_some'] at hm
    injection hm with hm2
    subst hm2
    rw [alookup_append]
    rw [fromWireEntries_none_of_none bf d o f ho habs]
    exact alookup_map_const _ f _ (List.mem_filter.mpr ⟨hf, by simp [habs]⟩)

/-- C9 witness: the empty wire object for `SubscribeRequest`. -/
theorem from_wire_defaults_absent_bytes_field_witness :
    ("pubkey" ∈ subscribeRequestBF) ∧
    alookup ([] : Obj) "pubkey" = none ∧
    fromWire subscribeRequestBF [] = some [("pubkey", Val.vbytes [])] ∧
    alookup [("pubkey", Val.vbytes [])] "pubkey" = some (.vbytes []) :=
  ⟨by decide, rfl, rfl,
   from_wire_defaults_absent_bytes_field subscribeRequestBF [] [("pubkey", Val.vbytes [])]
     "pubkey" (by decide) rfl rfl⟩

/-- C10: `_get_own_chat u c` returns a stored document exactly when that
document is stored under `u__c`, carries `username = u` and is not marked
deleted; in every other case it returns `None`, and `send_message` then
modifies nothing. -/
theorem chat_ownership_isolation (store : ChatStore) (u c : String) :
    (∀ cd, getOwnChat store u c = some cd ↔
      alookup store (u ++ "__" ++ c) = some cd ∧ usernameIs cd u = true ∧
        truthy (alookup cd "deleted") = false) ∧
    (∀ msg now, getOwnChat store u c = none → (sendMessage store u c msg now).1 = store) := by
  constructor
  · intro cd
    constructor
    · intro h
      rw [getOwnChat] at h
      cases hs : alookup store (u ++ "__" ++ c) with
      | none => rw [hs] at h; exact absurd h (by simp)
      | some cd0 =>
        rw [hs] at h
        cases hdel : truthy (alookup cd0 "deleted") with
        | true => simp [hdel] at h
        | false =>
          cases hu : usernameIs cd0 u with
          | false => simp [hdel, hu] at h
          | true =>
            simp [hdel, hu] at h
            subst h
            exact ⟨rfl, hu, hdel⟩
    · rintro ⟨hs, hu, hdel⟩
      rw [getOwnChat, hs]
      simp [hdel, hu]
  · intro msg now hnone
    rw [sendMessage]
    by_cases hm : msg.trim = ""
    · simp [hm]
    · simp [hm, hnone]

/-- C10 witness: an unknown chat against the empty store is not writable. -/
theorem chat_ownership_isolation_witness :
    getOwnChat [] "alice" "c1" = none ∧ (sendMessage [] "alice" "c1" "hi" "now").1 = [] :=
  ⟨rfl, (chat_ownership_isolation [] "alice" "c1").2 "hi" "now" rfl⟩

end DeltaDB
